import Mathlib

/-!
# Verification of the conflict-data query/aggregation engine

Shallow embedding of the backend's query, validation, aggregation and
export paths (`src/backend/src/routes/conflicts.ts`,
`src/backend/src/routes/regions.ts`, `src/backend/src/middleware/validation.ts`),
together with proofs of the specification's claims about them.

Modelling conventions:
* Timestamps (`date` fields, `Date.now()`) are integers counting
  milliseconds since the Unix epoch, as in JavaScript.
* The record store (Prisma/PostgreSQL) is a list of records in the
  store's internal order.  `findMany` with an `orderBy` on a single key
  is modelled as a stable sort by that key over the store order: the
  source passes no secondary sort key, so ties are returned in whatever
  order the store yields them.  `NULL` sorts as the largest value, the
  backing store's default.
* `latitude`/`longitude` are carried as integers; they are pass-through
  data for every property proved here.
-/

namespace ConflictPlatform

/-- A conflict-event record, after the Prisma `Conflict` model
(see `ConflictData` in the shared type definitions): `fatalities` and
`description` are nullable, all other fields are required. -/
structure ConflictRecord where
  id : String
  title : String
  description : Option String
  country : String
  region : String
  latitude : Int
  longitude : Int
  date : Int
  fatalities : Option Nat
  eventType : String
  source : String
  deriving Repr, DecidableEq

/-! ## Case-insensitive substring matching

Models Prisma `{ contains: needle, mode: 'insensitive' }`: the needle is
a substring of the field, comparing case-insensitively. -/

/-- Lower-case a string character by character. -/
def lowerStr (s : String) : List Char :=
  s.data.map Char.toLower

/-- `needle` occurs as a contiguous substring of `haystack`. -/
def infixOf (needle : List Char) : List Char → Bool
  | [] => needle.isEmpty
  | c :: cs => needle.isPrefixOf (c :: cs) || infixOf needle cs

/-- Case-insensitive substring test, the semantics of Prisma
`contains` with `mode: 'insensitive'`. -/
def containsCI (haystack needle : String) : Bool :=
  infixOf (lowerStr needle) (lowerStr haystack)

theorem infixOf_nil_left (l : List Char) : infixOf [] l = true := by
  induction l with
  | nil => rfl
  | cons c cs ih => simp [infixOf, List.isPrefixOf, ih]

theorem containsCI_empty (h : String) : containsCI h "" = true := by
  simpa [containsCI, lowerStr] using infixOf_nil_left (lowerStr h)

/-! ## FilterSpec and the `where` predicate -/

/-- The enumerated sort keys accepted by the query schema. -/
inductive SortBy | date | fatalities | country | eventType
  deriving Repr, DecidableEq

/-- Sort direction. -/
inductive SortOrder | asc | desc
  deriving Repr, DecidableEq

/-- The validated filter specification produced by the Joi schema
`conflictQuerySchema` for `GET /api/conflicts`. -/
structure FilterSpec where
  page : Nat := 1
  limit : Nat := 10
  country : Option String := none
  region : Option String := none
  eventType : Option String := none
  startDate : Option Int := none
  endDate : Option Int := none
  sortBy : SortBy := .date
  sortOrder : SortOrder := .desc
  deriving Repr, DecidableEq

/-- One text-filter clause of the `where` object.  The JavaScript guard
`if (country) { where.country = { contains, mode: 'insensitive' } }`
skips the clause when the value is absent *or* the empty string
(JS truthiness), so both cases impose no constraint. -/
def textClause (field : String) : Option String → Bool
  | none => true
  | some n => if n = "" then true else containsCI field n

/-- The date clause of the `where` object:
`if (startDate || endDate) { if (startDate) where.date.gte = …;
if (endDate) where.date.lte = … }`.  Joi has already converted the
bounds to `Date` values (always truthy), so each present bound
contributes an inclusive comparison. -/
def dateClause (d : Int) : Option Int → Option Int → Bool
  | none, none => true
  | some s, none => s ≤ d
  | none, some e => d ≤ e
  | some s, some e => s ≤ d && d ≤ e

/-- The row predicate built by `router.get('/')` from a `FilterSpec`
(the `where` object passed to both `findMany` and `count`). -/
def matchesWhere (spec : FilterSpec) (r : ConflictRecord) : Bool :=
  textClause r.country spec.country &&
  textClause r.region spec.region &&
  textClause r.eventType spec.eventType &&
  dateClause r.date spec.startDate spec.endDate

/-! ## Ordering and the paginated query

`findMany({ where, skip, take, orderBy })` with `orderBy = { sortBy: sortOrder }`:
the store returns the matching rows ordered by the single requested key.
No secondary key is requested, so equal keys are returned in store order
(modelled by a stable insertion sort). -/

/-- Comparison on the nullable `fatalities` column: `NULL` sorts as the
largest value (the backing store's default). -/
def optNatLe : Option Nat → Option Nat → Bool
  | _, none => true
  | none, some _ => false
  | some a, some b => a ≤ b

/-- Lexicographic comparison of character lists (the store's binary
collation on text columns). -/
def charListLe : List Char → List Char → Bool
  | [], _ => true
  | _ :: _, [] => false
  | x :: xs, y :: ys => if x = y then charListLe xs ys else decide (x < y)

/-- Lexicographic, code-point-wise string comparison. -/
def strLe (a b : String) : Bool := charListLe a.data b.data

/-- Non-strict comparison of two records on one sort key, ascending. -/
def fieldLe : SortBy → ConflictRecord → ConflictRecord → Bool
  | .date, a, b => a.date ≤ b.date
  | .fatalities, a, b => optNatLe a.fatalities b.fatalities
  | .country, a, b => strLe a.country b.country
  | .eventType, a, b => strLe a.eventType b.eventType

/-- The comparison realising `orderBy { [sortBy]: sortOrder }`. -/
def keyLe (sb : SortBy) : SortOrder → ConflictRecord → ConflictRecord → Bool
  | .asc, a, b => fieldLe sb a b
  | .desc, a, b => fieldLe sb b a

/-- `keyLe` as a decidable relation, for use with `List.insertionSort`. -/
def sortRel (sb : SortBy) (so : SortOrder) : ConflictRecord → ConflictRecord → Prop :=
  fun a b => keyLe sb so a b = true

instance (sb : SortBy) (so : SortOrder) : DecidableRel (sortRel sb so) :=
  fun a b => instDecidableEqBool (keyLe sb so a b) true

theorem optNatLe_total (x y : Option Nat) : optNatLe x y = true ∨ optNatLe y x = true := by
  cases x <;> cases y <;> simp [optNatLe]
  omega

theorem optNatLe_trans (x y z : Option Nat) (hxy : optNatLe x y = true)
    (hyz : optNatLe y z = true) : optNatLe x z = true := by
  cases x <;> cases y <;> cases z <;> simp [optNatLe] at *
  omega

theorem charListLe_total (l m : List Char) :
    charListLe l m = true ∨ charListLe m l = true := by
  induction l generalizing m with
  | nil => left; rfl
  | cons x xs ih =>
    cases m with
    | nil => right; rfl
    | cons y ys =>
      by_cases hxy : x = y
      · subst hxy
        simpa [charListLe] using ih ys
      · rcases lt_or_gt_of_ne hxy with h | h
        · left; simp [charListLe, hxy, h]
        · right; simp [charListLe, Ne.symm hxy, h]

theorem charListLe_trans (l m n : List Char) (hlm : charListLe l m = true)
    (hmn : charListLe m n = true) : charListLe l n = true := by
  induction l generalizing m n with
  | nil => rfl
  | cons x xs ih =>
    cases m with
    | nil => simp [charListLe] at hlm
    | cons y ys =>
      cases n with
      | nil => simp [charListLe] at hmn
      | cons z zs =>
        by_cases hxy : x = y <;> by_cases hyz : y = z
        · subst hxy; subst hyz
          simp only [charListLe, if_pos rfl] at hlm hmn ⊢
          exact ih ys zs hlm hmn
        · subst hxy
          simp only [charListLe, if_pos rfl, if_neg hyz] at hlm hmn ⊢
          exact hmn
        · subst hyz
          simp only [charListLe, if_neg hxy, if_pos rfl] at hlm ⊢
          exact hlm
        · simp only [charListLe, if_neg hxy, if_neg hyz, decide_eq_true_eq] at hlm hmn
          have hxz : x < z := lt_trans hlm hmn
          simp [charListLe, ne_of_lt hxz, hxz]

theorem strLe_total (a b : String) : strLe a b = true ∨ strLe b a = true :=
  charListLe_total a.data b.data

theorem strLe_trans (a b c : String) (hab : strLe a b = true) (hbc : strLe b c = true) :
    strLe a c = true :=
  charListLe_trans a.data b.data c.data hab hbc

theorem fieldLe_total (sb : SortBy) (a b : ConflictRecord) :
    fieldLe sb a b = true ∨ fieldLe sb b a = true := by
  cases sb
  · simp [fieldLe]; omega
  · exact optNatLe_total a.fatalities b.fatalities
  · exact strLe_total a.country b.country
  · exact strLe_total a.eventType b.eventType

theorem fieldLe_trans (sb : SortBy) (a b c : ConflictRecord)
    (hab : fieldLe sb a b = true) (hbc : fieldLe sb b c = true) :
    fieldLe sb a c = true := by
  cases sb
  · simp only [fieldLe, decide_eq_true_eq] at hab hbc ⊢; omega
  · exact optNatLe_trans _ _ _ hab hbc
  · exact strLe_trans _ _ _ hab hbc
  · exact strLe_trans _ _ _ hab hbc

instance (sb : SortBy) (so : SortOrder) : IsTotal ConflictRecord (sortRel sb so) := by
  constructor
  intro a b
  cases so
  · simpa [sortRel, keyLe] using fieldLe_total sb a b
  · simpa [sortRel, keyLe] using fieldLe_total sb b a

instance (sb : SortBy) (so : SortOrder) : IsTrans ConflictRecord (sortRel sb so) := by
  constructor
  intro a b c hab hbc
  cases so <;> simp only [sortRel, keyLe] at hab hbc ⊢
  · exact fieldLe_trans sb a b c hab hbc
  · exact fieldLe_trans sb c b a hbc hab

/-- The pagination block of the query response. -/
structure Pagination where
  page : Nat
  limit : Nat
  total : Nat
  totalPages : Nat
  hasNext : Bool
  hasPrev : Bool
  deriving Repr, DecidableEq

/-- The `{ conflicts, pagination }` response of `GET /api/conflicts`. -/
structure PageResult where
  records : List ConflictRecord
  pagination : Pagination
  deriving Repr, DecidableEq

/-- The handler of `GET /api/conflicts`: filter, order by the single
requested key, skip `(page-1)*limit`, take `limit`; `total` counts all
matching rows and `totalPages = Math.ceil(total / limit)`, written as
the integer ceiling formula, which agrees with `Math.ceil` of the exact
division for every validated `limit ≥ 1`. -/
def queryConflicts (spec : FilterSpec) (store : List ConflictRecord) : PageResult :=
  let skip := (spec.page - 1) * spec.limit
  let matching := store.filter (matchesWhere spec)
  let sorted := matching.insertionSort (sortRel spec.sortBy spec.sortOrder)
  let total := matching.length
  let totalPages := (total + spec.limit - 1) / spec.limit
  { records := (sorted.drop skip).take spec.limit
    pagination :=
      { page := spec.page
        limit := spec.limit
        total := total
        totalPages := totalPages
        hasNext := decide (spec.page < totalPages)
        hasPrev := decide (1 < spec.page) } }

/-! ## The Filter Normalizer

`validateRequest(conflictQuerySchema)` runs Joi validation on the query
object.  Joi is called with its default options, in particular
`abortEarly: true`: validation of an object stops at the first failing
key, and keys are checked in schema declaration order
(`page, limit, country, region, eventType, startDate, endDate, sortBy,
sortOrder`).  Raw transport values are modelled after JavaScript's
numeric/date coercion has been applied: a numeric query parameter is
either absent, not a number, or an exact rational; a date parameter is
either absent, unparseable, or a timestamp. -/

/-- A raw numeric query value (after JS coercion of the string). -/
inductive RawNum
  | missing
  | nan
  | num (q : ℚ)
  deriving Repr, DecidableEq

/-- A raw text query value. -/
inductive RawStr
  | missing
  | given (s : String)
  deriving Repr, DecidableEq

/-- A raw date query value (after date parsing). -/
inductive RawDate
  | missing
  | invalid
  | given (ms : Int)
  deriving Repr, DecidableEq

/-- The raw query object for `GET /api/conflicts`. -/
structure RawQuery where
  page : RawNum := .missing
  limit : RawNum := .missing
  country : RawStr := .missing
  region : RawStr := .missing
  eventType : RawStr := .missing
  startDate : RawDate := .missing
  endDate : RawDate := .missing
  sortBy : RawStr := .missing
  sortOrder : RawStr := .missing
  deriving Repr, DecidableEq

/-- `page: Joi.number().integer().min(1).default(1)`. -/
def validatePage : RawNum → Except String Nat
  | .missing => .ok 1
  | .nan => .error "\"page\" must be a number"
  | .num q =>
    if q.den ≠ 1 then .error "\"page\" must be an integer"
    else if q < 1 then .error "\"page\" must be greater than or equal to 1"
    else .ok q.num.toNat

/-- `limit: Joi.number().integer().min(1).max(1000).default(10)`. -/
def validateLimit : RawNum → Except String Nat
  | .missing => .ok 10
  | .nan => .error "\"limit\" must be a number"
  | .num q =>
    if q.den ≠ 1 then .error "\"limit\" must be an integer"
    else if q < 1 then .error "\"limit\" must be greater than or equal to 1"
    else if 1000 < q then .error "\"limit\" must be less than or equal to 1000"
    else .ok q.num.toNat

/-- `Joi.string().optional()`: absent stays absent; a present empty
string is rejected (Joi default). -/
def validateText (name : String) : RawStr → Except String (Option String)
  | .missing => .ok none
  | .given s =>
    if s.isEmpty then .error ("\"" ++ name ++ "\" is not allowed to be empty")
    else .ok (some s)

/-- `Joi.date().optional()`: must parse as a valid date when present.
No cross-field rule relates `startDate` and `endDate`. -/
def validateDate (name : String) : RawDate → Except String (Option Int)
  | .missing => .ok none
  | .invalid => .error ("\"" ++ name ++ "\" must be a valid date")
  | .given ms => .ok (some ms)

/-- `sortBy: Joi.string().valid('date','fatalities','country','eventType').default('date')`. -/
def validateSortBy : RawStr → Except String SortBy
  | .missing => .ok .date
  | .given s =>
    if s = "date" then .ok .date
    else if s = "fatalities" then .ok .fatalities
    else if s = "country" then .ok .country
    else if s = "eventType" then .ok .eventType
    else .error "\"sortBy\" must be one of [date, fatalities, country, eventType]"

/-- `sortOrder: Joi.string().valid('asc','desc').default('desc')`. -/
def validateSortOrder : RawStr → Except String SortOrder
  | .missing => .ok .desc
  | .given s =>
    if s = "asc" then .ok .asc
    else if s = "desc" then .ok .desc
    else .error "\"sortOrder\" must be one of [asc, desc]"

/-- Joi validation of the whole query object with the default
`abortEarly: true`: keys in declaration order, stop at the first
failure. -/
def validateConflictQuery (raw : RawQuery) : Except String FilterSpec := do
  let page ← validatePage raw.page
  let limit ← validateLimit raw.limit
  let country ← validateText "country" raw.country
  let region ← validateText "region" raw.region
  let eventType ← validateText "eventType" raw.eventType
  let startDate ← validateDate "startDate" raw.startDate
  let endDate ← validateDate "endDate" raw.endDate
  let sortBy ← validateSortBy raw.sortBy
  let sortOrder ← validateSortOrder raw.sortOrder
  return { page, limit, country, region, eventType, startDate, endDate, sortBy, sortOrder }

/-- The `validateRequest` middleware specialised to `conflictQuerySchema`
(only a `query` schema is present): a failed Joi validation contributes
one `"Query: …"` entry built from the Joi error's detail messages, and
the request fails with the collected list. -/
def validateRequestQuery (raw : RawQuery) : Except (List String) FilterSpec :=
  match validateConflictQuery raw with
  | .error msg => .error ["Query: " ++ msg]
  | .ok spec => .ok spec

/-! ## Aggregator: `GET /api/conflicts/stats` -/

/-- Prisma `aggregate({ _sum: { fatalities } })`: the sum of the
non-`NULL` values, or `NULL` when every value is `NULL`. -/
def sumFatalitiesAgg (store : List ConflictRecord) : Option Nat :=
  let present := store.filterMap (·.fatalities)
  if present.isEmpty then none else some present.sum

/-- Prisma `groupBy` with `_count`: one entry per distinct key value. -/
def groupCounts (key : ConflictRecord → String) (store : List ConflictRecord) :
    List (String × Nat) :=
  ((store.map key).dedup).map fun k => (k, (store.filter fun r => key r = k).length)

/-- The `GET /api/conflicts/stats` response body. -/
structure StatsSummary where
  totalConflicts : Nat
  totalFatalities : Nat
  recentConflicts : Nat
  conflictsByRegion : List (String × Nat)
  conflictsByEventType : List (String × Nat)
  deriving Repr, DecidableEq

/-- The handler of `GET /api/conflicts/stats`; `now` is `Date.now()` in
milliseconds.  `totalFatalities` is `_sum.fatalities || 0`;
`recentConflicts` counts rows with
`date ≥ new Date(Date.now() - 30*24*60*60*1000)`. -/
def statsSummary (store : List ConflictRecord) (now : Int) : StatsSummary :=
  { totalConflicts := store.length
    totalFatalities := (sumFatalitiesAgg store).getD 0
    recentConflicts :=
      (store.filter fun r => decide (now - 30 * 24 * 60 * 60 * 1000 ≤ r.date)).length
    conflictsByRegion := groupCounts (·.region) store
    conflictsByEventType := groupCounts (·.eventType) store }

/-! ## Per-region endpoint: `GET /api/regions/:region/conflicts` -/

/-- JavaScript `Math.round`: half-integers round up. -/
def jsRound (x : ℚ) : Int := ⌊x + 1 / 2⌋

/-- The `stats` block of the per-region response. -/
structure RegionStats where
  totalConflicts : Nat
  totalFatalities : Nat
  averageFatalities : Int
  deriving Repr, DecidableEq

/-- The per-region response body. -/
structure RegionResult where
  region : String
  conflicts : List ConflictRecord
  stats : RegionStats
  deriving Repr, DecidableEq

/-- Prisma `aggregate({ _avg: { fatalities } })`: the mean of the
non-`NULL` values, or `NULL` when every value is `NULL`. -/
def avgFatalitiesAgg (store : List ConflictRecord) : Option ℚ :=
  let present : List Nat := store.filterMap (·.fatalities)
  if present.isEmpty then none else some ((present.sum : ℚ) / (present.length : ℚ))

/-- The handler of `GET /api/regions/:region/conflicts`: rows whose
`region` contains the parameter case-insensitively, ordered by date
descending, plus `{ _count, _sum, _avg }` aggregates over the same
predicate, with `averageFatalities = Math.round(_avg.fatalities || 0)`. -/
def regionConflicts (regionParam : String) (store : List ConflictRecord) : RegionResult :=
  let matching := store.filter fun r => containsCI r.region regionParam
  { region := regionParam
    conflicts := matching.insertionSort (sortRel .date .desc)
    stats :=
      { totalConflicts := matching.length
        totalFatalities := (sumFatalitiesAgg matching).getD 0
        averageFatalities := jsRound ((avgFatalitiesAgg matching).getD 0) } }

/-! ## Exporter: `GET /api/conflicts/export` -/

/-- Two-digit zero padding, as in an ISO-8601 month or day. -/
def pad2 (n : Nat) : String :=
  if n < 10 then "0" ++ toString n else toString n

/-- Four-digit zero padding, as in an ISO-8601 year. -/
def pad4 (n : Nat) : String :=
  if n < 10 then "000" ++ toString n
  else if n < 100 then "00" ++ toString n
  else if n < 1000 then "0" ++ toString n
  else toString n

/-- Convert an epoch day count to a proleptic-Gregorian civil date
`(year, month, day)` (Howard Hinnant's `civil_from_days`). -/
def civilFromDays (z0 : Int) : Int × Nat × Nat :=
  let z := z0 + 719468
  let era : Int := z / 146097
  let doe : Nat := (z - era * 146097).toNat
  let yoe : Nat := (doe - doe / 1460 + doe / 36524 - doe / 146096) / 365
  let y : Int := (yoe : Int) + era * 400
  let doy : Nat := doe - (365 * yoe + yoe / 4 - yoe / 100)
  let mp : Nat := (5 * doy + 2) / 153
  let d : Nat := doy - (153 * mp + 2) / 5 + 1
  let m : Nat := if mp < 10 then mp + 3 else mp - 9
  (if m ≤ 2 then y + 1 else y, m, d)

/-- The date part of `date.toISOString()`, i.e.
`date.toISOString().split('T')[0]`: the UTC calendar date of the
timestamp, rendered `YYYY-MM-DD`.  `ms / 86400000` is floor division,
matching JavaScript's UTC day extraction. -/
def isoDate (ms : Int) : String :=
  let c := civilFromDays (ms / 86400000)
  pad4 c.1.toNat ++ "-" ++ pad2 c.2.1 ++ "-" ++ pad2 c.2.2

/-- `title.replace(/"/g, '""')`: double every double-quote. -/
def escapeQuotes : List Char → List Char
  | [] => []
  | c :: cs => if c = '"' then '"' :: '"' :: escapeQuotes cs else c :: escapeQuotes cs

/-- The quoted `Title` cell: `` `"${conflict.title.replace(/"/g, '""')}"` ``. -/
def titleCell (t : String) : String :=
  "\"" ++ String.mk (escapeQuotes t.data) ++ "\""

/-- The ten cells of one CSV row, in the order the source lists them. -/
def csvCells (r : ConflictRecord) : List String :=
  [ r.id
  , titleCell r.title
  , r.country
  , r.region
  , r.eventType
  , isoDate r.date
  , toString (r.fatalities.getD 0)
  , toString r.latitude
  , toString r.longitude
  , r.source ]

/-- One CSV data row: the cells joined by `','`. -/
def csvRow (r : ConflictRecord) : String :=
  String.intercalate "," (csvCells r)

/-- The fixed CSV header row. -/
def csvHeaders : String :=
  String.intercalate ","
    ["ID", "Title", "Country", "Region", "Event Type", "Date",
     "Fatalities", "Latitude", "Longitude", "Source"]

/-- `[csvHeaders, csvRows].join('\n')` where `csvRows` is the data rows
joined by `'\n'`. -/
def csvContent (conflicts : List ConflictRecord) : String :=
  String.intercalate "\n" [csvHeaders, String.intercalate "\n" (conflicts.map csvRow)]

/-- The export response: either a CSV blob or the JSON document
`{ exportDate, totalRecords, data }`. -/
inductive ExportOut
  | csv (content : String)
  | json (exportDate : Int) (totalRecords : Nat) (data : List ConflictRecord)
  deriving Repr, DecidableEq

/-- The handler of `GET /api/conflicts/export`: fetch the full dataset
ordered by date descending; `format` defaults to `'json'` and only the
exact value `'csv'` selects the CSV branch.  `now` is the wall clock
used for `exportDate`. -/
def exportConflicts (format : Option String) (store : List ConflictRecord)
    (now : Int) : ExportOut :=
  let conflicts := store.insertionSort (sortRel .date .desc)
  let fmt := format.getD "json"
  if fmt = "csv" then .csv (csvContent conflicts)
  else .json now conflicts.length conflicts

/-! ## Specification-side definitions

These formalise the words of the specification, to be compared with the
code-derived definitions above. -/

/-- The predicate the specification describes: the conjunction of
exactly the present conditions — each present text filter a
case-insensitive substring test, each present date bound an inclusive
comparison, absent filters vacuously true. -/
def claimPredicate (spec : FilterSpec) (r : ConflictRecord) : Bool :=
  (match spec.country with | none => true | some c => containsCI r.country c) &&
  (match spec.region with | none => true | some c => containsCI r.region c) &&
  (match spec.eventType with | none => true | some c => containsCI r.eventType c) &&
  (match spec.startDate with | none => true | some s => decide (s ≤ r.date)) &&
  (match spec.endDate with | none => true | some e => decide (r.date ≤ e))

/-- The ordering the specification claims for the query path: the
requested key first, ties broken by `id` ascending. -/
def claimOrderLe (sb : SortBy) (so : SortOrder) (a b : ConflictRecord) : Bool :=
  if keyLe sb so a b && keyLe sb so b a then strLe a.id b.id else keyLe sb so a b

/-- The unescaping rule stated by the specification for the CSV `Title`
field: collapse each doubled double-quote. -/
def unescapeQuotes : List Char → List Char
  | [] => []
  | [c] => [c]
  | c :: c' :: cs =>
    if c = '"' ∧ c' = '"' then '"' :: unescapeQuotes cs
    else c :: unescapeQuotes (c' :: cs)

/-- Undo the CSV quoting of the `Title` cell: strip the surrounding
quotes, then collapse doubled quotes. -/
def unquoteCell (s : String) : String :=
  String.mk (unescapeQuotes ((s.data.drop 1).dropLast))

/-! ## Concrete sample data -/

/-- Sample record: Syria, Middle East, 2024-01-01, 23 fatalities. -/
def recTieA : ConflictRecord :=
  { id := "a", title := "Clash A", description := none, country := "Syria"
  , region := "Middle East", latitude := 33, longitude := 36
  , date := 1704067200000, fatalities := some 23
  , eventType := "Battle", source := "ACLED" }

/-- Sample record sharing `recTieA`'s date (a sort-key tie), id `"b"`. -/
def recTieB : ConflictRecord :=
  { id := "b", title := "Clash B", description := none, country := "Yemen"
  , region := "Middle East", latitude := 15, longitude := 44
  , date := 1704067200000, fatalities := some 15
  , eventType := "Battle", source := "ACLED" }

/-- Sample record: Middle East, 27 fatalities, an earlier date. -/
def recMid : ConflictRecord :=
  { id := "c", title := "Strike C", description := none, country := "Iraq"
  , region := "Middle East", latitude := 33, longitude := 44
  , date := 1672531200000, fatalities := some 27
  , eventType := "Airstrike", source := "ACLED" }

/-- Sample record outside the Middle East, with unknown fatalities and a
double quote in its title. -/
def recOther : ConflictRecord :=
  { id := "d", title := "Riot \"X\"", description := none, country := "France"
  , region := "Western Europe", latitude := 48, longitude := 2
  , date := 1650000000000, fatalities := none
  , eventType := "Riot", source := "ACLED" }

/-- A small sample store. -/
def sampleStore : List ConflictRecord := [recTieB, recTieA, recOther, recMid]

/-! ## Theorems -/

theorem textClause_eq (f : String) (o : Option String) :
    textClause f o = (match o with | none => true | some n => containsCI f n) := by
  rcases o with _ | n
  · rfl
  · by_cases h : n = ""
    · subst h; simp [textClause, containsCI_empty]
    · simp [textClause, h]

theorem dateClause_eq (d : Int) (s e : Option Int) :
    dateClause d s e =
      ((match s with | none => true | some x => decide (x ≤ d)) &&
       (match e with | none => true | some y => decide (d ≤ y))) := by
  rcases s with _ | x <;> rcases e with _ | y <;> simp [dateClause]

/-- **C2.** For every FilterSpec, the query predicate is the conjunction
of exactly the present conditions: each present text filter is a
case-insensitive substring test, each present date bound an inclusive
comparison, and every absent filter imposes no constraint. -/
theorem predicate_is_conjunction_of_present_filters
    (spec : FilterSpec) (r : ConflictRecord) :
    matchesWhere spec r = claimPredicate spec r := by
  unfold matchesWhere claimPredicate
  rw [textClause_eq, textClause_eq, textClause_eq, dateClause_eq]
  simp [Bool.and_assoc]

theorem sum_filterMap_fatalities (store : List ConflictRecord) :
    (store.filterMap (·.fatalities)).sum =
      (store.map (fun r => r.fatalities.getD 0)).sum := by
  induction store with
  | nil => rfl
  | cons r rs ih => rcases h : r.fatalities with _ | n <;> simp [List.filterMap_cons, h, ih]

theorem sumFatalitiesAgg_getD (store : List ConflictRecord) :
    (sumFatalitiesAgg store).getD 0 = (store.filterMap (·.fatalities)).sum := by
  unfold sumFatalitiesAgg
  simp only []
  split_ifs with h
  · simp [List.isEmpty_iff.mp h]
  · rfl

/-- **C6.** For every store state and call time `now`, the stats
summary's `totalFatalities` is the sum of `fatalities` over every record
with absent values contributing 0 (such records still count toward
`totalConflicts`), and `recentConflicts` counts the records with
`date ≥ now - 30 days`, lower bound inclusive. -/
theorem stats_totals (store : List ConflictRecord) (now : Int) :
    (statsSummary store now).totalConflicts = store.length ∧
    (statsSummary store now).totalFatalities =
      (store.map fun r => r.fatalities.getD 0).sum ∧
    (statsSummary store now).recentConflicts =
      store.countP fun r => decide (now - 30 * 24 * 60 * 60 * 1000 ≤ r.date) := by
  refine ⟨rfl, ?_, ?_⟩
  · show (sumFatalitiesAgg store).getD 0 = _
    rw [sumFatalitiesAgg_getD, sum_filterMap_fatalities]
  · show (store.filter _).length = _
    rw [List.countP_eq_length_filter]

theorem escapeQuotes_ne_nil (c : Char) (cs : List Char) : escapeQuotes (c :: cs) ≠ [] := by
  simp only [escapeQuotes]
  split <;> simp

theorem unescapeQuotes_escapeQuotes (l : List Char) :
    unescapeQuotes (escapeQuotes l) = l := by
  induction l with
  | nil => rfl
  | cons c cs ih =>
    by_cases hc : c = '"'
    · subst hc
      rw [show escapeQuotes ('"' :: cs) = '"' :: '"' :: escapeQuotes cs from by
            simp [escapeQuotes]]
      rw [show unescapeQuotes ('"' :: '"' :: escapeQuotes cs) =
            '"' :: unescapeQuotes (escapeQuotes cs) from by simp [unescapeQuotes]]
      rw [ih]
    · simp only [escapeQuotes, if_neg hc]
      cases h : escapeQuotes cs with
      | nil =>
        cases cs with
        | nil => rfl
        | cons d ds => exact absurd h (escapeQuotes_ne_nil d ds)
      | cons e es =>
        rw [show unescapeQuotes (c :: e :: es) = c :: unescapeQuotes (e :: es) from by
              simp [unescapeQuotes, hc]]
        rw [← h, ih]

theorem unquoteCell_titleCell (t : String) : unquoteCell (titleCell t) = t := by
  unfold unquoteCell titleCell
  rw [show ("\"" ++ String.mk (escapeQuotes t.data) ++ "\"").data =
        '"' :: escapeQuotes t.data ++ ['"'] from by simp]
  simp [List.dropLast_concat, unescapeQuotes_escapeQuotes]

/-- **C5.** Each record is rendered as one CSV row in the fixed column
order `ID, Title, Country, Region, Event Type, Date, Fatalities,
Latitude, Longitude, Source`; the date cell is the `YYYY-MM-DD` part of
the timestamp with the time of day dropped; absent fatalities render as
the literal `0`; the title is double-quoted with internal double quotes
doubled, and unescaping by the stated rule reproduces the title
exactly. -/
theorem csv_row_format :
    csvHeaders = "ID,Title,Country,Region,Event Type,Date,Fatalities,Latitude,Longitude,Source" ∧
    (∀ r : ConflictRecord,
      csvRow r = String.intercalate ","
        [r.id, titleCell r.title, r.country, r.region, r.eventType,
         isoDate r.date, toString (r.fatalities.getD 0),
         toString r.latitude, toString r.longitude, r.source]) ∧
    (∀ r : ConflictRecord, r.fatalities = none → (csvCells r).getD 6 "" = "0") ∧
    (∀ t : String, unquoteCell (titleCell t) = t) ∧
    (∀ day t : Int, 0 ≤ t → t < 86400000 →
      isoDate (day * 86400000 + t) = isoDate (day * 86400000)) := by
  refine ⟨rfl, fun r => rfl, ?_, unquoteCell_titleCell, ?_⟩
  · intro r h
    simp [csvCells, h]
    rfl
  · intro day t ht htlt
    unfold isoDate
    have : (day * 86400000 + t) / 86400000 = day * 86400000 / 86400000 := by omega
    rw [this]

/-- Witness for **C5** at concrete inputs: a title containing a double
quote round-trips, a record with absent fatalities renders `0`, and two
timestamps on the same UTC day render the same date cell. -/
theorem csv_row_format_witness :
    unquoteCell (titleCell "Riot \"X\"") = "Riot \"X\"" ∧
    (csvCells recOther).getD 6 "" = "0" ∧
    isoDate (19723 * 86400000 + 3600000) = isoDate (19723 * 86400000) := by
  refine ⟨csv_row_format.2.2.2.1 "Riot \"X\"",
          csv_row_format.2.2.1 recOther rfl,
          csv_row_format.2.2.2.2 19723 3600000 (by decide) (by decide)⟩

/-- **C8.** The Filter Normalizer coerces `page` and `limit` to
integers, rejects out-of-range values (`page < 1`, `limit < 1`,
`limit > 1000`) with a validation error rather than clamping, and
defaults absent `page` to 1 and absent `limit` to 10. -/
theorem page_limit_validation :
    validatePage .missing = .ok 1 ∧
    validateLimit .missing = .ok 10 ∧
    (∀ q : ℚ, q.den = 1 → 1 ≤ q → validatePage (.num q) = .ok q.num.toNat) ∧
    (∀ q : ℚ, q.den = 1 → 1 ≤ q → q ≤ 1000 → validateLimit (.num q) = .ok q.num.toNat) ∧
    (∀ q : ℚ, q.den ≠ 1 → validatePage (.num q) = .error "\"page\" must be an integer") ∧
    (∀ q : ℚ, q.den ≠ 1 → validateLimit (.num q) = .error "\"limit\" must be an integer") ∧
    (∀ q : ℚ, q.den = 1 → q < 1 →
      validatePage (.num q) = .error "\"page\" must be greater than or equal to 1") ∧
    (∀ q : ℚ, q.den = 1 → q < 1 →
      validateLimit (.num q) = .error "\"limit\" must be greater than or equal to 1") ∧
    (∀ q : ℚ, q.den = 1 → 1000 < q →
      validateLimit (.num q) = .error "\"limit\" must be less than or equal to 1000") := by
  refine ⟨rfl, rfl, ?_, ?_, ?_, ?_, ?_, ?_, ?_⟩
  · intro q h1 h2
    simp [validatePage, h1, not_lt.mpr h2]
  · intro q h1 h2 h3
    simp [validateLimit, h1, not_lt.mpr h2, not_lt.mpr h3]
  · intro q h1
    simp [validatePage, h1]
  · intro q h1
    simp [validateLimit, h1]
  · intro q h1 h2
    simp [validatePage, h1, h2]
  · intro q h1 h2
    simp [validateLimit, h1, h2]
  · intro q h1 h2
    simp [validateLimit, h1, not_lt.mpr (show (1 : ℚ) ≤ q by linarith), h2]

/-- Witness for **C8**: absent values default, `page=0` and `limit=2000`
are rejected with the corresponding messages, `page=5` is accepted. -/
theorem page_limit_validation_witness :
    validatePage .missing = .ok 1 ∧
    validatePage (.num 0) = .error "\"page\" must be greater than or equal to 1" ∧
    validateLimit (.num 2000) = .error "\"limit\" must be less than or equal to 1000" ∧
    validatePage (.num 5) = .ok 5 := by
  refine ⟨page_limit_validation.1,
          page_limit_validation.2.2.2.2.2.2.1 0 (by decide) (by decide),
          page_limit_validation.2.2.2.2.2.2.2.2 2000 (by decide) (by decide),
          ?_⟩
  rw [page_limit_validation.2.2.1 5 (by decide) (by decide)]
  rfl

/-- **C4** is false on the code: with Joi's default `abortEarly`,
validation stops at the first failing field.  For an input whose `page`
and `limit` are both invalid, the error mentions only `page` — the
message list does not mention `limit` in any way (not even
case-insensitively). -/
theorem validation_lists_all_errors_counterexample :
    validateRequestQuery { page := .num 0, limit := .num 2000 } =
      .error ["Query: \"page\" must be greater than or equal to 1"] ∧
    containsCI "Query: \"page\" must be greater than or equal to 1" "limit" = false := by
  constructor
  · rfl
  · decide

/-- **C4 (amended).** For raw input whose `page` and `limit` are both
invalid, the Filter Normalizer fails with a single ValidationError
reporting only the first offending field in schema order (`page`),
because Joi validates with its default `abortEarly: true`. -/
theorem validation_reports_first_error (q1 q2 : ℚ) (h1 : q1.den = 1) (h2 : q1 < 1)
    (h3 : q2.den = 1) (h4 : 1000 < q2) :
    validateRequestQuery { page := .num q1, limit := .num q2 } =
      .error ["Query: \"page\" must be greater than or equal to 1"] := by
  unfold validateRequestQuery validateConflictQuery
  simp [validatePage, h1, h2, Bind.bind, Except.bind]

/-- Witness for **C4 (amended)** at `page=0`, `limit=2000`. -/
theorem validation_reports_first_error_witness :
    validateRequestQuery { page := .num 0, limit := .num 2000 } =
      .error ["Query: \"page\" must be greater than or equal to 1"] :=
  validation_reports_first_error 0 2000 (by decide) (by decide) (by decide) (by decide)

/-- **C9.** A filter whose `startDate` and `endDate` are both valid
dates with `endDate < startDate` passes validation unchanged (no
ValidationError), and the resulting query returns `total = 0` and an
empty record list. -/
theorem inverted_date_range_ok (s e : Int) (h : e < s) (store : List ConflictRecord) :
    validateConflictQuery { startDate := .given s, endDate := .given e } =
      .ok { startDate := some s, endDate := some e } ∧
    (queryConflicts { startDate := some s, endDate := some e } store).pagination.total = 0 ∧
    (queryConflicts { startDate := some s, endDate := some e } store).records = [] := by
  have hfil : store.filter
      (matchesWhere { startDate := some s, endDate := some e }) = [] := by
    apply List.filter_eq_nil_iff.mpr
    intro r _
    simp only [matchesWhere, textClause, dateClause, Bool.and_eq_true, decide_eq_true_eq,
      not_and]
    intro _ _ _
    omega
  refine ⟨rfl, ?_, ?_⟩
  · simp [queryConflicts, hfil]
  · simp [queryConflicts, hfil]

/-- Witness for **C9**: `startDate = 2024-01-01`, `endDate = 2023-01-01`
against the sample store. -/
theorem inverted_date_range_ok_witness :
    validateConflictQuery
        { startDate := .given 1704067200000, endDate := .given 1672531200000 } =
      .ok { startDate := some 1704067200000, endDate := some 1672531200000 } ∧
    (queryConflicts { startDate := some 1704067200000, endDate := some 1672531200000 }
        sampleStore).pagination.total = 0 ∧
    (queryConflicts { startDate := some 1704067200000, endDate := some 1672531200000 }
        sampleStore).records = [] :=
  inverted_date_range_ok 1704067200000 1672531200000 (by decide) sampleStore

/-- **C10.** For every export format other than the exact string
`'csv'` — including an absent parameter and unrecognized values — the
export returns the JSON document `{ exportDate, totalRecords, data }`
over the full dataset (never an error): `totalRecords` is the store
size and `data` a permutation (the date-descending ordering) of the
full store. -/
theorem export_defaults_to_json (fmt : Option String) (store : List ConflictRecord)
    (now : Int) (h : fmt ≠ some "csv") :
    exportConflicts fmt store now =
      .json now store.length (store.insertionSort (sortRel .date .desc)) ∧
    (store.insertionSort (sortRel .date .desc)).Perm store := by
  constructor
  · unfold exportConflicts
    have hfmt : fmt.getD "json" ≠ "csv" := by
      rcases fmt with _ | f
      · decide
      · simpa using h
    simp only [if_neg hfmt]
    congr 1
    exact (List.perm_insertionSort _ _).length_eq
  · exact List.perm_insertionSort _ _

/-- Witness for **C10**: the unrecognized format `'xml'` yields the JSON
document over the sample store. -/
theorem export_defaults_to_json_witness :
    exportConflicts (some "xml") sampleStore 0 =
      .json 0 sampleStore.length (sampleStore.insertionSort (sortRel .date .desc)) :=
  (export_defaults_to_json (some "xml") sampleStore 0 (by decide)).1

/-- **C1** is false on the code: `orderBy` requests only the single
`(sortBy, sortOrder)` key and no `id` tie-break.  On a store holding two
records with equal sort keys in the order `[id "b", id "a"]`, the query
returns them in store order `[b, a]`, which violates the claimed
`id`-ascending tie-break order (`claimOrderLe` does not hold between the
first and second returned record). -/
theorem query_id_tiebreak_counterexample :
    (queryConflicts ({} : FilterSpec) [recTieB, recTieA]).records = [recTieB, recTieA] ∧
    recTieB.date = recTieA.date ∧
    claimOrderLe .date .desc recTieB recTieA = false := by
  refine ⟨by decide, by decide, by decide⟩

/-- **C1 (amended).** For every FilterSpec, the records returned by the
query path are a contiguous slice (the window starting at
`(page-1)*limit` of width `limit`) of the full matching set ordered by
`(sortBy, sortOrder)`; the code requests no secondary sort key, so equal
keys keep the store's order rather than being tie-broken by `id`
ascending.  Re-querying an unchanged store is deterministic because the
result is a function of the spec and the store snapshot (including its
internal order). -/
theorem query_slice_sorted (spec : FilterSpec) (store : List ConflictRecord) :
    ((store.filter (matchesWhere spec)).insertionSort
        (sortRel spec.sortBy spec.sortOrder) =
      (((store.filter (matchesWhere spec)).insertionSort
          (sortRel spec.sortBy spec.sortOrder)).take ((spec.page - 1) * spec.limit)
        ++ (queryConflicts spec store).records
        ++ (((store.filter (matchesWhere spec)).insertionSort
          (sortRel spec.sortBy spec.sortOrder)).drop
            ((spec.page - 1) * spec.limit + spec.limit)))) ∧
    List.Pairwise (sortRel spec.sortBy spec.sortOrder)
      (queryConflicts spec store).records ∧
    ((store.filter (matchesWhere spec)).insertionSort
        (sortRel spec.sortBy spec.sortOrder)).Perm
      (store.filter (matchesWhere spec)) := by
  have hrec : (queryConflicts spec store).records =
      (((store.filter (matchesWhere spec)).insertionSort
        (sortRel spec.sortBy spec.sortOrder)).drop
          ((spec.page - 1) * spec.limit)).take spec.limit := rfl
  refine ⟨?_, ?_, List.perm_insertionSort _ _⟩
  · rw [hrec]
    conv_lhs =>
      rw [← List.take_append_drop ((spec.page - 1) * spec.limit)
            ((store.filter (matchesWhere spec)).insertionSort
              (sortRel spec.sortBy spec.sortOrder))]
    rw [List.append_assoc]
    congr 1
    conv_lhs =>
      rw [← List.take_append_drop spec.limit
            (((store.filter (matchesWhere spec)).insertionSort
              (sortRel spec.sortBy spec.sortOrder)).drop
                ((spec.page - 1) * spec.limit))]
    rw [List.drop_drop]
  · rw [hrec]
    exact List.Pairwise.sublist
      ((List.take_sublist _ _).trans (List.drop_sublist _ _))
      (List.sorted_insertionSort _ _)

theorem ceil_div_formula (n L : Nat) (hL : 1 ≤ L) :
    (n + L - 1) / L = ⌈(n : ℚ) / (L : ℚ)⌉₊ := by
  have hL0 : (0 : ℚ) < (L : ℚ) := by exact_mod_cast (by omega : 0 < L)
  rcases Nat.eq_zero_or_pos n with hn | hn
  · subst hn
    have h0 : (0 + L - 1) / L = 0 := Nat.div_eq_of_lt (by omega)
    rw [h0]
    simp
  · have hq : 0 < (n + L - 1) / L := Nat.div_pos (by omega) (by omega)
    obtain ⟨q', hq'⟩ : ∃ q', (n + L - 1) / L = q' + 1 := ⟨(n + L - 1) / L - 1, by omega⟩
    have h1 := Nat.div_add_mod (n + L - 1) L
    have h2 : (n + L - 1) % L < L := Nat.mod_lt _ (by omega)
    rw [hq'] at h1
    have hd : L * (q' + 1) = L * q' + L := by ring
    have hup : n ≤ L * (q' + 1) := by omega
    have hlow : L * q' < n := by omega
    rw [hq', eq_comm, Nat.ceil_eq_iff (by omega)]
    constructor
    · rw [show q' + 1 - 1 = q' from rfl, lt_div_iff₀ hL0]
      have hc := hlow
      rw [Nat.mul_comm] at hc
      exact_mod_cast hc
    · rw [div_le_iff₀ hL0]
      have hc := hup
      rw [Nat.mul_comm] at hc
      push_cast
      exact_mod_cast hc

theorem le_ceilFormula_mul (n L : Nat) (hL : 1 ≤ L) :
    n ≤ ((n + L - 1) / L) * L := by
  have h1 := Nat.div_add_mod (n + L - 1) L
  have h2 : (n + L - 1) % L < L := Nat.mod_lt _ (by omega)
  have hc : ((n + L - 1) / L) * L = L * ((n + L - 1) / L) := Nat.mul_comm _ _
  omega

/-- **C3.** For every valid FilterSpec (validated `limit ≥ 1`):
`records.length ≤ limit`, `records.length ≤ total`,
`totalPages = ceil(total/limit)` (the exact rational ceiling),
`hasNext = (page < totalPages)`, `hasPrev = (page > 1)`, and every page
beyond `totalPages` yields an empty record list with `hasNext = false`
and `hasPrev` true iff `page > 1` — not an error. -/
theorem pagination_invariants (spec : FilterSpec) (store : List ConflictRecord)
    (hlim : 1 ≤ spec.limit) :
    (queryConflicts spec store).records.length ≤ spec.limit ∧
    (queryConflicts spec store).records.length ≤
      (queryConflicts spec store).pagination.total ∧
    (queryConflicts spec store).pagination.totalPages =
      ⌈((queryConflicts spec store).pagination.total : ℚ) / (spec.limit : ℚ)⌉₊ ∧
    (queryConflicts spec store).pagination.hasNext =
      decide (spec.page < (queryConflicts spec store).pagination.totalPages) ∧
    (queryConflicts spec store).pagination.hasPrev = decide (1 < spec.page) ∧
    ((queryConflicts spec store).pagination.totalPages < spec.page →
      (queryConflicts spec store).records = [] ∧
      (queryConflicts spec store).pagination.hasNext = false ∧
      ((queryConflicts spec store).pagination.hasPrev = true ↔ 1 < spec.page)) := by
  have hrec : (queryConflicts spec store).records =
      (((store.filter (matchesWhere spec)).insertionSort
        (sortRel spec.sortBy spec.sortOrder)).drop
          ((spec.page - 1) * spec.limit)).take spec.limit := rfl
  have htot : (queryConflicts spec store).pagination.total =
      (store.filter (matchesWhere spec)).length := rfl
  have htp : (queryConflicts spec store).pagination.totalPages =
      ((store.filter (matchesWhere spec)).length + spec.limit - 1) / spec.limit := rfl
  have hlen : ((store.filter (matchesWhere spec)).insertionSort
      (sortRel spec.sortBy spec.sortOrder)).length =
      (store.filter (matchesWhere spec)).length :=
    (List.perm_insertionSort _ _).length_eq
  refine ⟨?_, ?_, ?_, rfl, rfl, ?_⟩
  · rw [hrec, List.length_take]
    exact min_le_left _ _
  · rw [hrec, htot, List.length_take]
    refine le_trans (min_le_right _ _) ?_
    rw [List.length_drop, hlen]
    omega
  · rw [htp, htot]
    exact ceil_div_formula _ _ hlim
  · intro hbeyond
    rw [htp] at hbeyond
    have hskip : (store.filter (matchesWhere spec)).length ≤
        (spec.page - 1) * spec.limit := by
      refine le_trans (le_ceilFormula_mul _ _ hlim) ?_
      exact Nat.mul_le_mul_right _ (by omega)
    refine ⟨?_, ?_, decide_eq_true_iff⟩
    · rw [hrec, List.drop_eq_nil_of_le (by rw [hlen]; exact hskip)]
      exact List.take_nil
    · exact decide_eq_false (by omega)

/-- Witness for **C3** at the default FilterSpec (limit 10) against the
sample store. -/
theorem pagination_invariants_witness :
    1 ≤ ({} : FilterSpec).limit ∧
    (queryConflicts ({} : FilterSpec) sampleStore).records.length ≤
      ({} : FilterSpec).limit ∧
    (queryConflicts ({} : FilterSpec) sampleStore).records.length ≤
      (queryConflicts ({} : FilterSpec) sampleStore).pagination.total := by
  have h := pagination_invariants ({} : FilterSpec) sampleStore (by decide)
  exact ⟨by decide, h.1, h.2.1⟩

theorem jsRound_eq_round (x : ℚ) : jsRound x = round x := (round_eq x).symm

theorem filterMap_fatalities_of_all_some (l : List ConflictRecord)
    (h : ∀ r ∈ l, r.fatalities ≠ none) :
    l.filterMap (·.fatalities) = l.map fun r => r.fatalities.getD 0 := by
  induction l with
  | nil => rfl
  | cons r rs ih =>
    rcases hr : r.fatalities with _ | n
    · exact absurd hr (h r (List.mem_cons_self r rs))
    · simp only [List.filterMap_cons, hr, List.map_cons, Option.getD_some]
      rw [ih fun x hx => h x (List.mem_cons_of_mem r hx)]

/-- **C7.** For a region query whose matching rows all carry a
fatalities value, `averageFatalities` is the mean of those values
rounded to the nearest integer (`round`, half up), and it is 0 when no
rows match. -/
theorem region_average_rounded (store : List ConflictRecord) (regionParam : String)
    (hall : ∀ r ∈ store.filter (fun r => containsCI r.region regionParam),
      r.fatalities ≠ none) :
    (store.filter (fun r => containsCI r.region regionParam) = [] →
      (regionConflicts regionParam store).stats.averageFatalities = 0) ∧
    (regionConflicts regionParam store).stats.averageFatalities =
      round (((store.filter (fun r => containsCI r.region regionParam)).map
          (fun r => (r.fatalities.getD 0 : ℚ))).sum /
        ((store.filter (fun r => containsCI r.region regionParam)).length : ℚ)) := by
  have hfm := filterMap_fatalities_of_all_some _ hall
  constructor
  · intro hempty
    show jsRound ((avgFatalitiesAgg
      (store.filter fun r => containsCI r.region regionParam)).getD 0) = 0
    rw [hempty]
    show jsRound ((avgFatalitiesAgg []).getD 0) = 0
    rw [show (avgFatalitiesAgg []).getD 0 = 0 from rfl, jsRound_eq_round]
    norm_num [round_eq]
  · show jsRound ((avgFatalitiesAgg
      (store.filter fun r => containsCI r.region regionParam)).getD 0) = _
    rw [jsRound_eq_round]
    by_cases hemp : store.filter (fun r => containsCI r.region regionParam) = []
    · rw [hemp]
      show round ((avgFatalitiesAgg []).getD 0) = _
      rw [show (avgFatalitiesAgg []).getD 0 = 0 from rfl]
      simp
    · have hlen2 : ((store.filter fun r => containsCI r.region regionParam).map
          fun r => r.fatalities.getD 0).length =
          (store.filter fun r => containsCI r.region regionParam).length :=
        List.length_map _ _
      have hval : (avgFatalitiesAgg
          (store.filter fun r => containsCI r.region regionParam)).getD 0 =
          (((store.filter fun r => containsCI r.region regionParam).map
              fun r => (r.fatalities.getD 0 : ℚ)).sum /
            ((store.filter fun r => containsCI r.region regionParam).length : ℚ)) := by
        unfold avgFatalitiesAgg
        simp only []
        split_ifs with hif
        · exfalso
          rw [hfm] at hif
          exact hemp (List.map_eq_nil_iff.mp (List.isEmpty_iff.mp hif))
        · rw [hfm, Option.getD_some, Nat.cast_list_sum, List.map_map, hlen2]
          rfl
      rw [hval]

/-- Witness for **C7**: the region `"Middle East"` over the sample store
matches exactly the rows with fatalities `[15, 23, 27]`, and
`averageFatalities = round(65/3) = 22`. -/
theorem region_average_rounded_witness :
    (regionConflicts "Middle East" sampleStore).stats.averageFatalities = 22 := by
  have h := (region_average_rounded sampleStore "Middle East" (by decide)).2
  rw [h]
  rw [show sampleStore.filter (fun r => containsCI r.region "Middle East") =
        [recTieB, recTieA, recMid] from by decide]
  norm_num [recTieB, recTieA, recMid, round_eq]

end ConflictPlatform
